import Mathlib

/-!
Verification of the interactive remote-session client of the
cisco_rus_configurator repository (SSH / Telnet / serial clients, the
prompt-completion read loop, the output cleaner, device-type detection,
and the macro runner of the web application).

Python string operations are embedded faithfully over `List Char`:
`str.strip` / `str.split('\n')` / `str.endswith` / the substring test
`in` are re-implemented below exactly as Python defines them, and the
client methods are translated statement by statement from
`src/core/ssh_client.py`, `src/core/telnet_client.py`,
`src/core/serial_client.py` and `src/web_app.py`.
-/

namespace CiscoRus

/-- Character lists standing for Python strings. -/
abbrev Chars := List Char

/-- Python `str.isspace` on a single character (the whitespace set used by
`str.strip`): space, tab, newline, carriage return, vertical tab, form feed. -/
def isSp (c : Char) : Bool :=
  c == ' ' || c == '\t' || c == '\n' || c == '\r' || c == '\x0b' || c == '\x0c'

/-- Python `str.lstrip()`. -/
def stripLeft (cs : Chars) : Chars := cs.dropWhile isSp

/-- Python `str.rstrip()`. -/
def stripRight (cs : Chars) : Chars := (cs.reverse.dropWhile isSp).reverse

/-- Python `str.strip()`. -/
def strip (cs : Chars) : Chars := stripRight (stripLeft cs)

/-- Python `s.split('\n')`: the list of segments of `s` between newline
characters; empty segments are kept and the result is never empty. -/
def segs : Chars → List Chars
  | [] => [[]]
  | c :: t =>
    if c = '\n' then [] :: segs t
    else
      match segs t with
      | [] => [[c]]
      | l :: ls => (c :: l) :: ls

/-- Python `'\n'.join(lines)`. -/
def joinNl : List Chars → Chars
  | [] => []
  | [l] => l
  | l :: ls => l ++ '\n' :: joinNl ls

/-- Test `startsW cs p`: Python `cs.startswith(p)`. -/
def startsW : Chars → Chars → Bool
  | _, [] => true
  | [], _ :: _ => false
  | c :: cs, p :: ps => c == p && startsW cs ps

/-- Test `endsW cs p`: Python `cs.endswith(p)`. -/
def endsW (cs p : Chars) : Bool := startsW cs.reverse p.reverse

/-- Test `hasSub p cs`: Python `p in cs` (substring containment). -/
def hasSub (p : Chars) : Chars → Bool
  | [] => startsW [] p
  | c :: t => startsW (c :: t) p || hasSub p t

/-- Python `str.lower()` (ASCII-faithful). -/
def toLowerC (cs : Chars) : Chars := cs.map Char.toLower

/-! ## Device-type detection (`SSHClient._detect_device_type`) -/

/-- The cisco detection markers of `_detect_device_type`. -/
def ciscoMarkers : List Chars := ["cisco".data, "ios".data, "nx-os".data, "asa".data]

/-- The eltex detection markers. -/
def eltexMarkers : List Chars := ["eltex".data, "mes-".data, "ltp-".data, "tau-".data]

/-- The juniper detection markers. -/
def juniperMarkers : List Chars :=
  ["junos".data, "juniper".data, "ex-".data, "srx-".data, "mx-".data]

/-- The huawei detection markers. -/
def huaweiMarkers : List Chars :=
  ["huawei".data, "vrp".data, "versatile routing platform".data]

/-- The hp detection markers. -/
def hpMarkers : List Chars :=
  ["hp ".data, "hewlett-packard".data, "procurve".data, "provision".data]

/-- The aruba detection markers. -/
def arubaMarkers : List Chars := ["aruba".data, "arubaos".data]

/-- The mikrotik detection markers. -/
def mikrotikMarkers : List Chars := ["mikrotik".data, "routeros".data]

/-- The fortinet detection markers. -/
def fortinetMarkers : List Chars := ["fortinet".data, "fortigate".data, "fortios".data]

/-- Python `any(pattern in output_lower for pattern in markers)`. -/
def containsAnyC (cs : Chars) (markers : List Chars) : Bool :=
  markers.any (fun p => hasSub p cs)

/-- Embedding of `SSHClient._detect_device_type` (src/core/ssh_client.py:124-155): lowercase
the initial banner and test the vendor marker groups in the source's fixed
order; the first group with a substring match wins, with fallback "generic". -/
def detect_device_type (initial_output : String) : String :=
  let ol := toLowerC initial_output.data
  if containsAnyC ol ciscoMarkers then "cisco"
  else if containsAnyC ol eltexMarkers then "eltex"
  else if containsAnyC ol juniperMarkers then "juniper"
  else if containsAnyC ol huaweiMarkers then "huawei"
  else if containsAnyC ol hpMarkers then "hp"
  else if containsAnyC ol arubaMarkers then "aruba"
  else if containsAnyC ol mikrotikMarkers then "mikrotik"
  else if containsAnyC ol fortinetMarkers then "fortinet"
  else "generic"

/-! ## Prompt detection (`SSHClient._is_prompt_ready`) -/

/-- The `prompt_patterns` table of `_is_prompt_ready` together with the Python
`dict.get(device_type, patterns['generic'])` lookup. -/
def promptPatterns (device_type : String) : List Chars :=
  if device_type = "cisco" then ["#".data, ">".data, "(config)#".data, "(config-if)#".data]
  else if device_type = "eltex" then
    ["#".data, ">".data, "(config)#".data, "(config-if)#".data]
  else if device_type = "juniper" then [">".data, "#".data, "% ".data]
  else if device_type = "huawei" then ["<".data, ">".data, "]".data, "#".data]
  else if device_type = "hp" then ["#".data, ">".data, "% ".data]
  else if device_type = "aruba" then ["#".data, ">".data, "% ".data]
  else if device_type = "mikrotik" then [">".data, "] ".data]
  else if device_type = "fortinet" then ["#".data, "$ ".data]
  else ["#".data, ">".data, "$ ".data]

/-- Embedding of `SSHClient._is_prompt_ready` (src/core/ssh_client.py:278-301) on a raw
character buffer: strip the whole buffer, split it into lines, strip the last
line, and test whether it ends with one of the profile's prompt patterns.
(Python's `if lines:` guard is embedded as the `match`; `split` never returns
an empty list, so the `false` branch is unreachable.) -/
def isPromptReadyC (device_type : String) (output : Chars) : Bool :=
  let patterns := promptPatterns device_type
  let lines := segs (strip output)
  match lines with
  | [] => false
  | _ :: _ =>
    let last_line := strip (lines.getLastD [])
    patterns.any (fun p => endsW last_line p)

/-- Embedding of `SSHClient._is_prompt_ready` on a Python string. -/
def is_prompt_ready (device_type : String) (output : String) : Bool :=
  isPromptReadyC device_type output.data

/-! ## Output cleaning (`SSHClient._clean_output`) -/

/-- The prompt marker substrings of `_clean_output`'s
`any(prompt in line for prompt in ['#', '>', '$ ', '] '])`. -/
def cleanMarkers : List Chars := ["#".data, ">".data, "$ ".data, "] ".data]

/-- Whether a (stripped) line contains one of the prompt marker substrings. -/
def hasMarker (l : Chars) : Bool := cleanMarkers.any (fun m => hasSub m l)

/-- The `for line in lines:` loop of `SSHClient._clean_output`
(src/core/ssh_client.py:312-330): `skipEcho` is the `skip_command_echo` flag
and `accEmpty` tracks `not cleaned_lines`. -/
def cleanLines (command : Chars) (skipEcho accEmpty : Bool) : List Chars → List Chars
  | [] => []
  | line :: rest =>
    let l := strip line
    if skipEcho && hasSub command l then cleanLines command false accEmpty rest
    else if accEmpty && l.isEmpty then cleanLines command skipEcho accEmpty rest
    else if hasMarker l then cleanLines command skipEcho accEmpty rest
    else l :: cleanLines command skipEcho false rest

/-- The trailing `while cleaned_lines and not cleaned_lines[-1]:
cleaned_lines.pop()` loop: drop trailing empty lines. -/
def popTrailingEmpty (ls : List Chars) : List Chars :=
  (ls.reverse.dropWhile List.isEmpty).reverse

/-- Embedding of `SSHClient._clean_output` (src/core/ssh_client.py:303-336). -/
def clean_output (output command : String) : String :=
  if output.data.isEmpty then ""
  else ⟨joinNl (popTrailingEmpty (cleanLines command.data true true (segs output.data)))⟩

/-! ## The read loop (`SSHClient._wait_for_output`)

Time is discretised at the loop's poll quantum (`time.sleep(0.1)`): one tick of
`elapsed` corresponds to one pass through the `else` branch.  The chunk
schedule lists, per loop iteration, either `some data` (the channel had bytes
ready and `recv` returned `data`) or `none` (`recv_ready()` was false); once
the schedule is exhausted the channel stays silent, which is the same as an
infinite tail of `none` entries.  In the source, `timeout` seconds and the 2-s
idle threshold translate to `timeoutTicks` and `idleTicks` (300 and 20 at the
defaults); both stay abstract parameters here. -/

/-- How `_wait_for_output`'s loop ended: a prompt match, the idle fallback,
elapsed time reaching the command timeout, or fuel exhaustion (unreachable for
the fuel chosen in `wait_for_output`). -/
inductive WaitExit : Type
  | promptDone : WaitExit
  | idleDone : WaitExit
  | timedOut : WaitExit
  | fuelOut : WaitExit
deriving DecidableEq

/-- The `while (time.time() - start_time) < timeout:` loop of
`_wait_for_output` (src/core/ssh_client.py:256-274), one constructor step per
iteration.  On a data iteration the chunk is appended and the prompt check
runs; on a silent iteration time advances one tick and the idle fallback is
checked exactly as in the source (`if output and (time.time() -
last_data_time) > 2`). -/
def waitLoop (dt : String) (timeoutTicks idleTicks : Nat) :
    Nat → List (Option Chars) → Chars → Nat → Nat → Chars × WaitExit
  | 0, _, out, _, _ => (out, WaitExit.fuelOut)
  | fuel + 1, chunks, out, elapsed, lastData =>
    if timeoutTicks ≤ elapsed then (out, WaitExit.timedOut)
    else
      match chunks with
      | some d :: rest =>
        let out2 := out ++ d
        if isPromptReadyC dt out2 then (out2, WaitExit.promptDone)
        else waitLoop dt timeoutTicks idleTicks fuel rest out2 elapsed elapsed
      | none :: rest =>
        if !out.isEmpty && decide (idleTicks < elapsed + 1 - lastData) then
          (out, WaitExit.idleDone)
        else waitLoop dt timeoutTicks idleTicks fuel rest out (elapsed + 1) lastData
      | [] =>
        if !out.isEmpty && decide (idleTicks < elapsed + 1 - lastData) then
          (out, WaitExit.idleDone)
        else waitLoop dt timeoutTicks idleTicks fuel [] out (elapsed + 1) lastData

/-- Embedding of `SSHClient._wait_for_output` (src/core/ssh_client.py:250-276): run the
read loop from an empty buffer at time zero.  The fuel bound
`timeoutTicks + chunks.length + 1` exceeds the iteration count of any run, so
`fuelOut` never occurs. -/
def wait_for_output (dt : String) (timeoutTicks idleTicks : Nat)
    (chunks : List (Option Chars)) : Chars × WaitExit :=
  waitLoop dt timeoutTicks idleTicks (timeoutTicks + chunks.length + 1) chunks [] 0 0

/-! ## `SSHClient.execute_command` and the session state -/

/-- The error taxonomy of command execution as observable from the clients:
the only typed failure the three `execute_command` variants raise themselves
is the "Not connected to device" exception. -/
inductive ExecError : Type
  | notConnected : ExecError
deriving DecidableEq

/-- Embedding of `SSHClient.execute_command` (src/core/ssh_client.py:207-240).  `connected`
and `hasShell` model `self.connected` and `self.shell is not None`.  The
second component is the transcript of raw sends (`shell.send(command + '\n')`),
used to state that nothing is sent when the not-connected guard fires.  The
read-loop result is cleaned and returned whatever the loop's exit reason was —
the loop's exit status is not inspected by the source. -/
def ssh_execute_command (connected hasShell : Bool) (dt : String) (command : String)
    (timeoutTicks idleTicks : Nat) (chunks : List (Option Chars)) :
    Except ExecError String × List String :=
  if !connected || !hasShell then (Except.error ExecError.notConnected, [])
  else
    let r := wait_for_output dt timeoutTicks idleTicks chunks
    (Except.ok (clean_output ⟨r.1⟩ command), [command ++ "\n"])

/-- The mutable attributes of `SSHClient` that connect/disconnect touch:
`self.client`, `self.shell` (presence of the handles), `self.connected` and
`self.device_type`. -/
structure SSHState : Type where
  client : Bool
  shell : Bool
  connected : Bool
  device_type : Option String
deriving DecidableEq

/-- Embedding of `SSHClient.disconnect` (src/core/ssh_client.py:188-205).  The two flags
inject a raising `shell.close()` / `client.close()`; the `except` clause of
the source catches the exception after the mutations made so far, so the
function always returns, with `true` in the second component when an
exception was caught (the source merely logs it). -/
def ssh_disconnect (s : SSHState) (shellCloseRaises clientCloseRaises : Bool) :
    SSHState × Bool :=
  if s.shell && shellCloseRaises then (s, true)
  else
    let s1 : SSHState := { s with shell := false }
    if s1.client && clientCloseRaises then (s1, true)
    else ({ client := false, shell := false, connected := false, device_type := none }, false)

/-- Which step of `SSHClient.connect` raises, if any: `client.connect(...)`
(authentication, SSH or socket errors), `invoke_shell()`/`settimeout`, or the
initial `recv_ready()`/`recv` of the banner. -/
inductive SSHConnectFail : Type
  | ok : SSHConnectFail
  | connectRaises : SSHConnectFail
  | shellRaises : SSHConnectFail
  | recvRaises : SSHConnectFail
deriving DecidableEq

/-- Embedding of `SSHClient.connect` (src/core/ssh_client.py:53-122).  `banner` is the
initial output drained from the shell on success.  Every `except` branch of
the source calls `self.disconnect()` and returns `False`; on success the
device type is detected from the banner and `connected` is set. -/
def ssh_connect (s : SSHState) (banner : String) (fail : SSHConnectFail) :
    SSHState × Bool :=
  let s1 : SSHState := { s with client := true }
  match fail with
  | SSHConnectFail.connectRaises => ((ssh_disconnect s1 false false).1, false)
  | SSHConnectFail.shellRaises => ((ssh_disconnect s1 false false).1, false)
  | SSHConnectFail.recvRaises =>
    ((ssh_disconnect { s1 with shell := true } false false).1, false)
  | SSHConnectFail.ok =>
    ({ s1 with shell := true, connected := true,
               device_type := some (detect_device_type banner) }, true)

/-! ## The Telnet client (`src/core/telnet_client.py`) -/

/-- The mutable attributes of `TelnetClient`: `self.connection` (presence of
the handle), `self.is_connected`, `self.host`, `self.port`. -/
structure TelnetState : Type where
  connection : Bool
  is_connected : Bool
  host : Option String
  port : Option Nat
deriving DecidableEq

/-- Embedding of `TelnetClient.disconnect` (src/core/telnet_client.py:61-74).  The flag
injects a raising `connection.close()`; the source's `except` catches it
before any attribute was cleared, so on that path the state is returned
unchanged with `true` (an error was caught and logged). -/
def telnet_disconnect (s : TelnetState) (closeRaises : Bool) : TelnetState × Bool :=
  if s.connection && closeRaises then (s, true)
  else (⟨false, false, none, none⟩, false)

/-- How `TelnetClient.connect` ends: success, the `telnetlib.Telnet(...)`
constructor raising (before `self.connection` is assigned), a later
read/write raising (after `self.connection` was assigned), or the prompt
never appearing in `read_until(b"#")`'s result. -/
inductive TelnetConnectFail : Type
  | ok : TelnetConnectFail
  | ctorRaises : TelnetConnectFail
  | stepRaises : TelnetConnectFail
  | noPrompt : TelnetConnectFail
deriving DecidableEq

/-- Embedding of `TelnetClient.connect` (src/core/telnet_client.py:18-59).  Only the
no-prompt branch calls `self.disconnect()`; the `except Exception` handler
just logs and returns `False`, keeping whatever `self.connection` holds. -/
def telnet_connect (s : TelnetState) (hostname : String) (port : Nat)
    (fail : TelnetConnectFail) : TelnetState × Bool :=
  match fail with
  | TelnetConnectFail.ctorRaises => (s, false)
  | TelnetConnectFail.stepRaises => ({ s with connection := true }, false)
  | TelnetConnectFail.noPrompt =>
    ((telnet_disconnect { s with connection := true } false).1, false)
  | TelnetConnectFail.ok => (⟨true, true, some hostname, some port⟩, true)

/-- Embedding of `TelnetClient._clean_output` (src/core/telnet_client.py:108-119): keep the
lines whose stripped form is non-empty, differs from the command, and does not
end in `#`; kept lines are right-stripped. -/
def telnet_clean_output (output command : String) : String :=
  ⟨joinNl (((segs output.data).filter (fun line =>
      let st := strip line
      !st.isEmpty && !(st == command.data) && !endsW st ("#".data))).map stripRight)⟩

/-- Embedding of `TelnetClient.execute_command` (src/core/telnet_client.py:76-106).
`readData` is what `read_until(b"#", timeout)` returned; the transcript of
writes is the second component. -/
def telnet_execute_command (is_connected hasConnection : Bool) (command : String)
    (readData : String) : Except ExecError String × List String :=
  if !is_connected || !hasConnection then (Except.error ExecError.notConnected, [])
  else (Except.ok (telnet_clean_output readData command), [command ++ "\n"])

/-! ## The serial client (`src/core/serial_client.py`) -/

/-- Embedding of `SerialClient._is_prompt_ready` (src/core/serial_client.py:132-141): the
fixed indicator list, same last-line logic as the SSH client. -/
def serial_is_prompt_ready (output : Chars) : Bool :=
  let indicators : List Chars :=
    ["#".data, ">".data, "(config)#".data, "(config-if)#".data]
  let lines := segs (strip output)
  match lines with
  | [] => false
  | _ :: _ =>
    let last_line := strip (lines.getLastD [])
    indicators.any (fun p => endsW last_line p)

/-- The `while time.time() - start_time < timeout:` loop of
`SerialClient._receive_output` (src/core/serial_client.py:109-130).  Every
iteration ends in `time.sleep(0.1)`, so each step consumes one schedule entry
and one tick; a silent line (`in_waiting == 0`) is a `none` entry.  When the
timeout expires the partial buffer is returned. -/
def serialLoop : Nat → List (Option Chars) → Chars → Chars
  | 0, _, out => out
  | fuel + 1, chunks, out =>
    match chunks with
    | some d :: rest =>
      let out2 := out ++ d
      if serial_is_prompt_ready out2 then out2 else serialLoop fuel rest out2
    | none :: rest => serialLoop fuel rest out
    | [] => out

/-- Embedding of `SerialClient._clean_output` (src/core/serial_client.py:143-154): keep
lines whose stripped form is non-empty, differs from the command and ends in
neither `#` nor `>`; kept lines are right-stripped. -/
def serial_clean_output (output command : String) : String :=
  ⟨joinNl (((segs output.data).filter (fun line =>
      let st := strip line
      !st.isEmpty && !(st == command.data) && !endsW st ("#".data)
        && !endsW st (">".data))).map stripRight)⟩

/-- Embedding of `SerialClient.execute_command` (src/core/serial_client.py:74-107):
not-connected guard, then write `command + '\r\n'` and run the receive loop
for at most `timeoutTicks` poll quanta. -/
def serial_execute_command (is_connected hasConnection : Bool) (command : String)
    (timeoutTicks : Nat) (chunks : List (Option Chars)) :
    Except ExecError String × List String :=
  if !is_connected || !hasConnection then (Except.error ExecError.notConnected, [])
  else
    (Except.ok (serial_clean_output ⟨serialLoop timeoutTicks chunks []⟩ command),
     [command ++ "\r\n"])

/-! ## The web application's macro runner (`src/web_app.py`) -/

/-- One entry of the per-command result list built by the
`/api/execute_macro` handler. -/
structure MacroEntry : Type where
  command : String
  result : String
  success : Bool
deriving DecidableEq

/-- The `for command in macro['commands']:` loop of the handler
(src/web_app.py:284-298), accumulating `results.append({...})` for each
command; `run` is the session's `execute_command`, whose outcome per command
is an ordinary result or a caught exception message. -/
def macroLoop (run : String → Except String String) :
    List String → List MacroEntry → List MacroEntry
  | [], acc => acc
  | c :: rest, acc =>
    match run c with
    | Except.ok r => macroLoop run rest (acc ++ [⟨c, r, true⟩])
    | Except.error e => macroLoop run rest (acc ++ [⟨c, e, false⟩])

/-- The result list returned by the `/api/execute_macro` handler for a found
macro (src/web_app.py:263-309). -/
def execute_macro (commands : List String) (run : String → Except String String) :
    List MacroEntry :=
  macroLoop run commands []

/-! ## Spec-side definitions

These follow the specification's wording and are compared against the
definitions above, which are translated from the source. -/

/-- A line is blank when stripping it leaves nothing. -/
def isBlank (l : Chars) : Bool := (strip l).isEmpty

/-- The spec's "last non-empty line" of a buffer: the last line of the
buffer (split at newlines) whose stripped form is non-empty, or the empty
line when there is none. -/
def lastNonBlankLineC (cs : Chars) : Chars :=
  ((segs cs).filter (fun l => !isBlank l)).getLastD []

/-- Lift of `lastNonBlankLineC` to a Python string. -/
def lastNonBlankLine (s : String) : String := ⟨lastNonBlankLineC s.data⟩

/-- The stripped last line of a buffer, exactly as `_is_prompt_ready`
computes it before the suffix tests. -/
def lastLineStripped (x : Chars) : Chars := strip ((segs x).getLastD [])

/-- Remove the first element that contains `cmd` as a substring (the spec-side
reading of the command-echo removal actually performed by `_clean_output`:
the first line containing the command, anywhere in the list). -/
def removeFirstContaining (cmd : Chars) : List Chars → List Chars
  | [] => []
  | l :: rest => if hasSub cmd l then rest else l :: removeFirstContaining cmd rest

/-- The declarative pipeline equivalent of `_clean_output`'s loop: strip every
line, remove the first line containing the command, drop every line containing
a prompt marker substring, and drop the leading block of empty lines. -/
def cleanSpecLines (cmd : Chars) (lines : List Chars) : List Chars :=
  ((removeFirstContaining cmd (lines.map strip)).filter
      (fun l => !hasMarker l)).dropWhile List.isEmpty

/-- The declarative description of what `_clean_output` actually computes:
the pipeline of `cleanSpecLines` followed by removal of trailing empty lines,
with the source's empty-buffer shortcut. -/
def cleanSpec (output command : String) : String :=
  if output.data.isEmpty then ""
  else ⟨joinNl (popTrailingEmpty (cleanSpecLines command.data (segs output.data)))⟩

/-- A chunk schedule on which the read loop can only end by timeout: data
keeps trickling in with one silent tick between chunks (so the idle fallback
never fires for any idle threshold above one tick) and no prompt ever
appears. -/
def c1chunks : List (Option Chars) :=
  [some ("Building ".data), none, some ("config".data), none, some ("...".data), none]

/-! ## Sanity checks of the embedding on concrete inputs -/

example : segs ("a\nbc\n".data) = ["a".data, "bc".data, []] := by decide
example : strip ("  ab c\r\n".data) = "ab c".data := by decide
example : endsW ("Router#".data) ("#".data) = true := by decide
example : hasSub ("ios".data) ("cisco ios sw".data) = true := by decide
example : hasSub ("ios".data) ("routeros".data) = false := by decide
example : detect_device_type "Cisco IOS Software" = "cisco" := by decide
example : detect_device_type "MikroTik RouterOS 6.48" = "mikrotik" := by decide
example : is_prompt_ready "cisco" "Router#" = true := by decide
example : is_prompt_ready "cisco" "Switch>" = true := by decide
example : is_prompt_ready "cisco" "Router(config)#" = true := by decide
example : is_prompt_ready "cisco" "show version output" = false := by decide
example : is_prompt_ready "cisco" "banner # inside\nstill going" = false := by decide
example : is_prompt_ready "cisco" "line one\nRouter#\n  \n" = true := by decide
example : clean_output "show version\nCisco IOS Software\nVersion 15.1\nRouter#" "show version"
    = "Cisco IOS Software\nVersion 15.1" := by decide
example : telnet_clean_output "show clock\r\n10:12:45 UTC\r\nRouter#" "show clock"
    = "10:12:45 UTC" := by decide
example : wait_for_output "cisco" 5 20 [some ("abc\nRouter#".data)]
    = ("abc\nRouter#".data, WaitExit.promptDone) := by decide
example : (wait_for_output "cisco" 3 20 [none, none]).2 = WaitExit.timedOut := by decide
example : (wait_for_output "cisco" 30 2 [some ("partial data".data)]).2
    = WaitExit.idleDone := by decide

/-! ## C4 -/

/-- C4: on the raw buffer `"show version\r\nCisco IOS Software\r\nRouter#"`
with command `"show version"`, the SSH output cleaner returns exactly
`"Cisco IOS Software"`: the command echo line and the trailing prompt line are
both removed. -/
theorem c4_round_trip_cleaning :
    clean_output "show version\r\nCisco IOS Software\r\nRouter#" "show version"
      = "Cisco IOS Software" := by decide

/-! ## C9 -/

/-- C9: `disconnect` is idempotent.  After one (fault-free) `disconnect`, the
SSH client's connected flag is false, both transport handles and the detected
profile are cleared, and a second `disconnect` — whatever its environment
would do on a `close()` call — returns the very same state and catches no
error, because no handle remains to close.  The Telnet client behaves the same
way. -/
theorem c9_disconnect_idempotent :
    ∀ (s : SSHState) (b1 b2 : Bool) (t : TelnetState) (b3 : Bool),
      (ssh_disconnect s false false).1 = ⟨false, false, false, none⟩
      ∧ ssh_disconnect (ssh_disconnect s false false).1 b1 b2
          = ((ssh_disconnect s false false).1, false)
      ∧ (telnet_disconnect t false).1 = ⟨false, false, none, none⟩
      ∧ telnet_disconnect (telnet_disconnect t false).1 b3
          = ((telnet_disconnect t false).1, false) := by
  intro s b1 b2 t b3
  refine ⟨?_, ?_, ?_, ?_⟩ <;> simp [ssh_disconnect, telnet_disconnect]

/-! ## C7 -/

/-- The macro loop is an accumulating map over the command list. -/
theorem macroLoop_eq_map (run : String → Except String String) :
    ∀ (cs : List String) (acc : List MacroEntry),
      macroLoop run cs acc = acc ++ cs.map (fun c =>
        match run c with
        | Except.ok r => ⟨c, r, true⟩
        | Except.error e => ⟨c, e, false⟩) := by
  intro cs
  induction cs with
  | nil => intro acc; simp [macroLoop]
  | cons c rest ih =>
    intro acc
    simp only [macroLoop, List.map_cons]
    cases run c <;> simp [ih]

/-- C7: the macro runner visits the commands in list order and a failure does
not abort the rest: the result list has exactly one entry per command, the
i-th entry names the i-th command and carries that command's own outcome
(success with its output, or failure with the caught error message),
independently of every other command's outcome.  In particular, for a
3-command macro whose second command fails with an I/O error, the list has
length 3, entry 2 is marked failed and entries 1 and 3 carry their own
results. -/
theorem c7_macro_partial_failure :
    ∀ (commands : List String) (run : String → Except String String),
      ( execute_macro commands run).length = commands.length
      ∧ (∀ i : Nat, ( execute_macro commands run)[i]? = (commands[i]?).map (fun c =>
          match run c with
          | Except.ok r => ⟨c, r, true⟩
          | Except.error e => ⟨c, e, false⟩))
      ∧ execute_macro ["show version", "show run", "show ip route"]
          (fun c => if c = "show run" then Except.error "IO error" else Except.ok (c ++ " ok"))
        = [⟨"show version", "show version ok", true⟩,
           ⟨"show run", "IO error", false⟩,
           ⟨"show ip route", "show ip route ok", true⟩] := by
  intro commands run
  refine ⟨?_, ?_, by decide⟩
  · simp [ execute_macro, macroLoop_eq_map]
  · intro i
    simp [ execute_macro, macroLoop_eq_map]

/-! ## C8 -/

/-- C8: each of the three clients checks the connected precondition first:
with the connected flag false or the channel object absent, `execute_command`
fails with the not-connected error and the send transcript is empty — nothing
is written to the transport. -/
theorem c8_not_connected_guard :
    ∀ (c sh : Bool) (dt cmd : String) (t i : Nat) (chunks : List (Option Chars))
      (tc tco : Bool) (rd : String) (sc sco : Bool) (st : Nat)
      (schunks : List (Option Chars)),
      (c = false ∨ sh = false →
        ssh_execute_command c sh dt cmd t i chunks = (Except.error ExecError.notConnected, []))
      ∧ (tc = false ∨ tco = false →
        telnet_execute_command tc tco cmd rd = (Except.error ExecError.notConnected, []))
      ∧ (sc = false ∨ sco = false →
        serial_execute_command sc sco cmd st schunks
          = (Except.error ExecError.notConnected, [])) := by
  intro c sh dt cmd t i chunks tc tco rd sc sco st schunks
  refine ⟨?_, ?_, ?_⟩ <;> rintro (rfl | rfl) <;>
    simp [ssh_execute_command, telnet_execute_command, serial_execute_command]

/-- Witness for C8 at concrete inputs. -/
theorem c8_not_connected_guard_witness :
    ssh_execute_command false true "cisco" "show version" 3 20 []
        = (Except.error ExecError.notConnected, [])
    ∧ telnet_execute_command true false "show version" "data"
        = (Except.error ExecError.notConnected, [])
    ∧ serial_execute_command false false "show version" 5 []
        = (Except.error ExecError.notConnected, []) :=
  ⟨(c8_not_connected_guard false true "cisco" "show version" 3 20 [] true false "data"
      false false 5 []).1 (Or.inl rfl),
   (c8_not_connected_guard false true "cisco" "show version" 3 20 [] true false "data"
      false false 5 []).2.1 (Or.inr rfl),
   (c8_not_connected_guard false true "cisco" "show version" 3 20 [] true false "data"
      false false 5 []).2.2 (Or.inl rfl)⟩

/-! ## C5 -/

/-- Counterexample to C5 as stated: the banner `"Cisco IOS RouterOS"` contains
the substring `"RouterOS"` (case-insensitively), yet detection classifies it
as `"cisco"`, not `"mikrotik"` — the vendor groups are tested in a fixed
priority order and cisco markers are checked first. -/
theorem c5_counterexample :
    hasSub ("routeros".data) (toLowerC ("Cisco IOS RouterOS".data)) = true
    ∧ detect_device_type "Cisco IOS RouterOS" = "cisco"
    ∧ detect_device_type "Cisco IOS RouterOS" ≠ "mikrotik" := by decide

/-- C5 (amended): detection is a total function on banner strings; a banner
containing `"RouterOS"` case-insensitively classifies as `"mikrotik"`
provided no marker of an earlier-checked vendor group (cisco, eltex, juniper,
huawei, hp, aruba) occurs in it; a banner containing `"JUNOS"` classifies as
`"juniper"` provided no cisco or eltex marker occurs in it; the empty banner
classifies as `"generic"`; and a banner matching no vendor marker group at
all classifies as `"generic"`. -/
theorem c5_detection_priority :
    (∀ b : String,
      hasSub ("routeros".data) (toLowerC b.data) = true →
      containsAnyC (toLowerC b.data) ciscoMarkers = false →
      containsAnyC (toLowerC b.data) eltexMarkers = false →
      containsAnyC (toLowerC b.data) juniperMarkers = false →
      containsAnyC (toLowerC b.data) huaweiMarkers = false →
      containsAnyC (toLowerC b.data) hpMarkers = false →
      containsAnyC (toLowerC b.data) arubaMarkers = false →
      detect_device_type b = "mikrotik")
    ∧ (∀ b : String,
      hasSub ("junos".data) (toLowerC b.data) = true →
      containsAnyC (toLowerC b.data) ciscoMarkers = false →
      containsAnyC (toLowerC b.data) eltexMarkers = false →
      detect_device_type b = "juniper")
    ∧ detect_device_type "" = "generic"
    ∧ (∀ b : String,
      containsAnyC (toLowerC b.data) ciscoMarkers = false →
      containsAnyC (toLowerC b.data) eltexMarkers = false →
      containsAnyC (toLowerC b.data) juniperMarkers = false →
      containsAnyC (toLowerC b.data) huaweiMarkers = false →
      containsAnyC (toLowerC b.data) hpMarkers = false →
      containsAnyC (toLowerC b.data) arubaMarkers = false →
      containsAnyC (toLowerC b.data) mikrotikMarkers = false →
      containsAnyC (toLowerC b.data) fortinetMarkers = false →
      detect_device_type b = "generic") := by
  refine ⟨?_, ?_, by decide, ?_⟩
  · intro b h1 h2 h3 h4 h5 h6 h7
    have hmk : containsAnyC (toLowerC b.data) mikrotikMarkers = true := by
      simp [containsAnyC, mikrotikMarkers, h1]
    simp [detect_device_type, h2, h3, h4, h5, h6, h7, hmk]
  · intro b h1 h2 h3
    have hjn : containsAnyC (toLowerC b.data) juniperMarkers = true := by
      simp [containsAnyC, juniperMarkers, h1]
    simp [detect_device_type, h2, h3, hjn]
  · intro b h1 h2 h3 h4 h5 h6 h7 h8
    simp [detect_device_type, h1, h2, h3, h4, h5, h6, h7, h8]

/-- Witness for C5 at concrete banners. -/
theorem c5_detection_priority_witness :
    detect_device_type "MikroTik RouterOS 6.48" = "mikrotik"
    ∧ detect_device_type "JUNOS 21.2R3 Software" = "juniper"
    ∧ detect_device_type "" = "generic"
    ∧ detect_device_type "hello world" = "generic" :=
  ⟨c5_detection_priority.1 "MikroTik RouterOS 6.48" (by decide) (by decide) (by decide)
      (by decide) (by decide) (by decide) (by decide),
   c5_detection_priority.2.1 "JUNOS 21.2R3 Software" (by decide) (by decide) (by decide),
   c5_detection_priority.2.2.1,
   c5_detection_priority.2.2.2 "hello world" (by decide) (by decide) (by decide) (by decide)
      (by decide) (by decide) (by decide) (by decide)⟩

/-! ## C6 -/

/-- Counterexample to C6 as stated: when a Telnet connect raises after the
socket object was created (e.g. an `EOFError` during the login exchange), the
generic exception handler returns `False` without calling `disconnect`, so the
failed connect leaves the `connection` handle set — a half-open state the
caller must clean up. -/
theorem c6_counterexample :
    (telnet_connect ⟨false, false, none, none⟩ "192.0.2.1" 23 TelnetConnectFail.stepRaises).2
        = false
    ∧ (telnet_connect ⟨false, false, none, none⟩ "192.0.2.1" 23
        TelnetConnectFail.stepRaises).1.connection = true := by decide

/-- C6 (amended): the SSH client's `connect` does call `disconnect` on every
failure path, leaving no handle and the connected flag false; the Telnet
client disconnects only on the explicit no-prompt failure, while an exception
after the socket was opened returns failure with the connection object still
retained. -/
theorem c6_connect_failure_cleanup :
    (∀ (s : SSHState) (banner : String) (f : SSHConnectFail),
      f ≠ SSHConnectFail.ok →
      ssh_connect s banner f = (⟨false, false, false, none⟩, false))
    ∧ (∀ (s : TelnetState) (h : String) (p : Nat),
      telnet_connect s h p TelnetConnectFail.noPrompt = (⟨false, false, none, none⟩, false))
    ∧ (∀ (s : TelnetState) (h : String) (p : Nat),
      telnet_connect s h p TelnetConnectFail.stepRaises
        = ({ s with connection := true }, false)) := by
  refine ⟨?_, ?_, ?_⟩
  · intro s banner f hf
    cases f with
    | ok => exact absurd rfl hf
    | connectRaises => simp [ssh_connect, ssh_disconnect]
    | shellRaises => simp [ssh_connect, ssh_disconnect]
    | recvRaises => simp [ssh_connect, ssh_disconnect]
  · intro s h p; simp [telnet_connect, telnet_disconnect]
  · intro s h p; simp [telnet_connect]

/-- Witness for C6 at concrete inputs. -/
theorem c6_connect_failure_cleanup_witness :
    ssh_connect ⟨false, false, false, none⟩ "" SSHConnectFail.connectRaises
        = (⟨false, false, false, none⟩, false)
    ∧ telnet_connect ⟨false, false, none, none⟩ "192.0.2.9" 23 TelnetConnectFail.noPrompt
        = (⟨false, false, none, none⟩, false)
    ∧ telnet_connect ⟨false, false, none, none⟩ "192.0.2.9" 23 TelnetConnectFail.stepRaises
        = (⟨true, false, none, none⟩, false) :=
  ⟨c6_connect_failure_cleanup.1 ⟨false, false, false, none⟩ "" SSHConnectFail.connectRaises
      (by decide),
   c6_connect_failure_cleanup.2.1 ⟨false, false, none, none⟩ "192.0.2.9" 23,
   c6_connect_failure_cleanup.2.2 ⟨false, false, none, none⟩ "192.0.2.9" 23⟩

/-! ## C1 -/

/-- Counterexample to C1 as stated: on the schedule `c1chunks` with a
3-tick command timeout and a 20-tick idle threshold the read loop never sees a
prompt and never reaches the idle gap, so it exits by timeout — yet
`execute_command` returns the partially accumulated buffer, cleaned, as an
ordinary success value instead of a timeout error. -/
theorem c1_counterexample :
    (wait_for_output "cisco" 3 20 c1chunks).2 = WaitExit.timedOut
    ∧ ssh_execute_command true true "cisco" "show running-config" 3 20 c1chunks
        = (Except.ok "Building config...", ["show running-config\n"]) := ⟨by decide, rfl⟩

/-- C1 (amended): when the read loop's per-command timeout elapses with no
completion condition ever satisfied, the partial buffer is not discarded and
no timeout error is surfaced: `execute_command` returns the accumulated
partial buffer, cleaned, as an ordinary result. -/
theorem c1_timeout_keeps_buffer :
    ∀ (dt cmd : String) (t i : Nat) (chunks : List (Option Chars)),
      (wait_for_output dt t i chunks).2 = WaitExit.timedOut →
      ssh_execute_command true true dt cmd t i chunks
        = (Except.ok (clean_output ⟨(wait_for_output dt t i chunks).1⟩ cmd), [cmd ++ "\n"]) := by
  intro dt cmd t i chunks _
  simp [ssh_execute_command]

/-- Witness for C1's amended theorem at a concrete timed-out run. -/
theorem c1_timeout_keeps_buffer_witness :
    (wait_for_output "cisco" 3 20 c1chunks).2 = WaitExit.timedOut
    ∧ ssh_execute_command true true "cisco" "show version" 3 20 c1chunks
        = (Except.ok (clean_output ⟨(wait_for_output "cisco" 3 20 c1chunks).1⟩ "show version"),
           ["show version\n"]) :=
  ⟨by decide, c1_timeout_keeps_buffer "cisco" "show version" 3 20 c1chunks (by decide)⟩

/-! ## C10 -/

/-- Every prompt pattern of every profile is a non-empty string. -/
theorem promptPatterns_ne_nil (dt : String) : ∀ p ∈ promptPatterns dt, p ≠ [] := by
  unfold promptPatterns
  repeat' split
  all_goals decide

/-- The empty buffer ends with no non-empty pattern. -/
theorem endsW_nil_of_ne (p : Chars) (hp : p ≠ []) : endsW [] p = false := by
  unfold endsW
  rw [List.reverse_nil]
  rcases h : p.reverse with _ | ⟨d, ds⟩
  · exact absurd (List.reverse_eq_nil_iff.mp h) hp
  · rfl

/-- The prompt check is false on the empty buffer, for every device type. -/
theorem isPromptReadyC_nil (dt : String) : isPromptReadyC dt [] = false := by
  show (promptPatterns dt).any (fun p => endsW (strip ((segs (strip [])).getLastD [])) p) = false
  rw [List.any_eq_false]
  intro p hp
  have hne := promptPatterns_ne_nil dt p hp
  show ¬ endsW [] p = true
  rw [endsW_nil_of_ne p hne]
  simp

/-- A silent channel never completes: with only `none` entries in the
schedule and an empty starting buffer, the loop ticks until the timeout and
exits `timedOut` with the empty buffer. -/
theorem waitLoop_silent (dt : String) (t i : Nat) :
    ∀ (fuel : Nat) (chunks : List (Option Chars)) (elapsed lastData : Nat),
      (∀ c ∈ chunks, c = none) → t - elapsed < fuel →
      waitLoop dt t i fuel chunks [] elapsed lastData = ([], WaitExit.timedOut) := by
  intro fuel
  induction fuel with
  | zero => intro chunks elapsed lastData _ hf; omega
  | succ n ih =>
    intro chunks elapsed lastData hall hf
    by_cases ht : t ≤ elapsed
    · simp [waitLoop, ht]
    · have hcond : ¬((!([] : Chars).isEmpty
          && decide (i < elapsed + 1 - lastData)) = true) := by simp
      match chunks, hall with
      | [], _ =>
        rw [waitLoop, if_neg ht]
        rw [if_neg hcond]
        exact ih [] (elapsed + 1) lastData (by simp) (by omega)
      | none :: rest, hall =>
        rw [waitLoop, if_neg ht]
        rw [if_neg hcond]
        exact ih rest (elapsed + 1) lastData (fun c hc => hall c (List.mem_cons_of_mem _ hc))
          (by omega)
      | some d :: rest, hall =>
        exact absurd (hall (some d) (List.mem_cons_self _ _)) (by simp)

/-- The idle fallback only ever fires on a non-empty buffer: whenever the
loop's result is `idleDone`, the returned buffer is non-empty. -/
theorem waitLoop_idle_nonempty (dt : String) (t i : Nat) :
    ∀ (fuel : Nat) (chunks : List (Option Chars)) (out : Chars) (elapsed lastData : Nat),
      (waitLoop dt t i fuel chunks out elapsed lastData).2 = WaitExit.idleDone →
      (waitLoop dt t i fuel chunks out elapsed lastData).1 ≠ [] := by
  intro fuel
  induction fuel with
  | zero => intro chunks out elapsed lastData h; simp [waitLoop] at h
  | succ n ih =>
    intro chunks out elapsed lastData h
    by_cases ht : t ≤ elapsed
    · simp [waitLoop, ht] at h
    · match chunks with
      | [] =>
        rw [waitLoop, if_neg ht] at h ⊢
        by_cases hc : (!out.isEmpty && decide (i < elapsed + 1 - lastData)) = true
        · rw [if_pos hc] at h ⊢
          show out ≠ []
          intro heq
          rw [heq] at hc
          simp at hc
        · rw [if_neg hc] at h ⊢
          exact ih [] out (elapsed + 1) lastData h
      | none :: rest =>
        rw [waitLoop, if_neg ht] at h ⊢
        by_cases hc : (!out.isEmpty && decide (i < elapsed + 1 - lastData)) = true
        · rw [if_pos hc] at h ⊢
          show out ≠ []
          intro heq
          rw [heq] at hc
          simp at hc
        · rw [if_neg hc] at h ⊢
          exact ih rest out (elapsed + 1) lastData h
      | some d :: rest =>
        rw [waitLoop, if_neg ht] at h ⊢
        by_cases hp : isPromptReadyC dt (out ++ d) = true
        · rw [if_pos hp] at h; simp at h
        · rw [if_neg hp] at h ⊢
          exact ih rest (out ++ d) elapsed elapsed h

/-- C10: completion is never declared on an empty buffer.  The prompt check
returns false on the empty buffer for every profile; for a device that sends
no bytes at all the read loop runs for the full per-command timeout and exits
`timedOut` with the empty buffer (it never exits early with an empty result);
and whenever the idle fallback ends the loop, at least one byte had been
received. -/
theorem c10_read_loop_invariant :
    (∀ dt : String, is_prompt_ready dt "" = false)
    ∧ (∀ (dt : String) (t i : Nat) (chunks : List (Option Chars)),
        (∀ c ∈ chunks, c = none) →
        wait_for_output dt t i chunks = ([], WaitExit.timedOut))
    ∧ (∀ (dt : String) (t i : Nat) (chunks : List (Option Chars)),
        (wait_for_output dt t i chunks).2 = WaitExit.idleDone →
        (wait_for_output dt t i chunks).1 ≠ []) := by
  refine ⟨?_, ?_, ?_⟩
  · intro dt
    exact isPromptReadyC_nil dt
  · intro dt t i chunks hall
    exact waitLoop_silent dt t i _ chunks 0 0 hall (by omega)
  · intro dt t i chunks h
    exact waitLoop_idle_nonempty dt t i _ chunks [] 0 0 h

/-- Witness for C10 at concrete inputs. -/
theorem c10_read_loop_invariant_witness :
    is_prompt_ready "cisco" "" = false
    ∧ wait_for_output "cisco" 4 20 [none, none] = ([], WaitExit.timedOut)
    ∧ ((wait_for_output "generic" 30 2 [some ("x".data)]).2 = WaitExit.idleDone
        ∧ (wait_for_output "generic" 30 2 [some ("x".data)]).1 ≠ []) :=
  ⟨c10_read_loop_invariant.1 "cisco",
   c10_read_loop_invariant.2.1 "cisco" 4 20 [none, none] (by decide),
   by decide,
   c10_read_loop_invariant.2.2 "generic" 30 2 [some ("x".data)] (by decide)⟩

/-! ## Structure of `segs` (the line splitter) -/

theorem segs_ne_nil : ∀ cs : Chars, segs cs ≠ [] := by
  intro cs
  cases cs with
  | nil => simp [segs]
  | cons c t =>
    simp only [segs]
    by_cases h : c = '\n'
    · simp [h]
    · rcases hseg : segs t with _ | ⟨l, ls⟩ <;> simp [h, hseg]

theorem segs_no_nl : ∀ cs : Chars, (∀ c ∈ cs, c ≠ '\n') → segs cs = [cs] := by
  intro cs
  induction cs with
  | nil => intro _; rfl
  | cons c t ih =>
    intro h
    have hc : ¬ c = '\n' := h c (List.mem_cons_self _ _)
    have ht := ih (fun x hx => h x (List.mem_cons_of_mem _ hx))
    simp [segs, hc, ht]

theorem segs_append_nl : ∀ (a y : Chars), (∀ c ∈ a, c ≠ '\n') →
    segs (a ++ '\n' :: y) = a :: segs y := by
  intro a y
  induction a with
  | nil => intro _; simp [segs]
  | cons c t ih =>
    intro h
    have hc : ¬ c = '\n' := h c (List.mem_cons_self _ _)
    have ht := ih (fun x hx => h x (List.mem_cons_of_mem _ hx))
    simp [segs, hc, ht]

theorem mem_segs_no_nl : ∀ (cs l : Chars), l ∈ segs cs → ∀ c ∈ l, c ≠ '\n' := by
  intro cs
  induction cs with
  | nil =>
    intro l hl
    simp [segs] at hl
    simp [hl]
  | cons c t ih =>
    intro l hl
    by_cases h : c = '\n'
    · simp only [segs, if_pos h] at hl
      rcases List.mem_cons.mp hl with h1 | h1
      · simp [h1]
      · exact ih l h1
    · rcases hseg : segs t with _ | ⟨l0, ls⟩
      · exact absurd hseg (segs_ne_nil t)
      · simp only [segs, if_neg h, hseg] at hl
        rcases List.mem_cons.mp hl with h1 | h1
        · subst h1
          intro x hx
          rcases List.mem_cons.mp hx with h2 | h2
          · simp [h2, h]
          · exact ih l0 (by rw [hseg]; exact List.mem_cons_self _ _) x h2
        · exact ih l (by rw [hseg]; exact List.mem_cons_of_mem _ h1)

theorem joinNl_segs : ∀ cs : Chars, joinNl (segs cs) = cs := by
  intro cs
  induction cs with
  | nil => rfl
  | cons c t ih =>
    by_cases h : c = '\n'
    · rcases hseg : segs t with _ | ⟨l, ls⟩
      · exact absurd hseg (segs_ne_nil t)
      · rw [hseg] at ih
        simp only [segs, if_pos h, hseg, joinNl]
        simp [h, ih]
    · rcases hseg : segs t with _ | ⟨l, ls⟩
      · exact absurd hseg (segs_ne_nil t)
      · rw [hseg] at ih
        cases ls with
        | nil => simp only [segs, if_neg h, hseg, joinNl] at ih ⊢; simp [ih]
        | cons l2 ls2 => simp only [segs, if_neg h, hseg, joinNl] at ih ⊢; simp [ih]

theorem getLastD_indep : ∀ (ls : List Chars) (d d' : Chars), ls ≠ [] →
    ls.getLastD d = ls.getLastD d' := by
  intro ls d d' h
  cases ls with
  | nil => exact absurd rfl h
  | cons a rest => rw [List.getLastD_cons, List.getLastD_cons]

/-! ## Structure of the stripping functions -/

theorem stripRight_eq_nil_iff (x : Chars) : stripRight x = [] ↔ ∀ c ∈ x, isSp c = true := by
  unfold stripRight
  rw [List.reverse_eq_nil_iff, List.dropWhile_eq_nil_iff]
  constructor
  · intro h c hc
    exact h c (List.mem_reverse.mpr hc)
  · intro h c hc
    exact h c (List.mem_reverse.mp hc)

theorem stripLeft_eq_nil_iff (x : Chars) : stripLeft x = [] ↔ ∀ c ∈ x, isSp c = true :=
  List.dropWhile_eq_nil_iff

theorem stripRight_cons (c : Char) (t : Chars) :
    stripRight (c :: t) = if isSp c = true ∧ stripRight t = [] then [] else c :: stripRight t := by
  unfold stripRight
  rw [List.reverse_cons, List.dropWhile_append]
  by_cases h : t.reverse.dropWhile isSp = []
  · rw [h]
    by_cases hc : isSp c = true
    · simp [hc, h]
    · simp [hc, h, List.dropWhile_cons]
  · have h2 : (t.reverse.dropWhile isSp).isEmpty = false := by simp [h]
    have h3 : ¬ (isSp c = true ∧ (t.reverse.dropWhile isSp).reverse = []) := by
      simp [h]
    rw [h2]
    simp only [Bool.false_eq_true, if_false, if_neg h3, List.reverse_append,
      List.reverse_cons, List.reverse_nil, List.nil_append, List.singleton_append]

theorem stripRight_append_of_ne (a b : Chars) (h : stripRight b ≠ []) :
    stripRight (a ++ b) = a ++ stripRight b := by
  unfold stripRight at h ⊢
  rw [List.reverse_append, List.dropWhile_append]
  have h2 : (b.reverse.dropWhile isSp).isEmpty = false := by
    simp only [List.isEmpty_eq_false]
    intro hx
    exact h (by rw [hx]; rfl)
  rw [h2]
  simp

theorem stripRight_append_allSp (a b : Chars) (h : ∀ c ∈ b, isSp c = true) :
    stripRight (a ++ b) = stripRight a := by
  unfold stripRight
  rw [List.reverse_append, List.dropWhile_append]
  have h2 : b.reverse.dropWhile isSp = [] := by
    rw [List.dropWhile_eq_nil_iff]
    intro c hc
    exact h c (List.mem_reverse.mp hc)
  rw [h2]
  simp

theorem strip_cons_of_sp (c : Char) (t : Chars) (h : isSp c = true) :
    strip (c :: t) = strip t := by
  unfold strip stripLeft
  rw [List.dropWhile_cons_of_pos h]

theorem strip_allSp_prepend (w y : Chars) (h : ∀ c ∈ w, isSp c = true) :
    strip (w ++ y) = strip y := by
  unfold strip stripLeft
  rw [List.dropWhile_append_of_pos h]

theorem dropWhile_isSp_idem (l : Chars) :
    (l.dropWhile isSp).dropWhile isSp = l.dropWhile isSp := by
  induction l with
  | nil => rfl
  | cons c t ih =>
    by_cases h : isSp c = true
    · rw [List.dropWhile_cons_of_pos h, ih]
    · rw [List.dropWhile_cons_of_neg h, List.dropWhile_cons_of_neg h]

theorem stripRight_idem (x : Chars) : stripRight (stripRight x) = stripRight x := by
  unfold stripRight
  rw [List.reverse_reverse, dropWhile_isSp_idem]

theorem strip_stripRight : ∀ x : Chars, strip (stripRight x) = strip x := by
  intro x
  induction x with
  | nil => rfl
  | cons c t ih =>
    rw [stripRight_cons]
    by_cases h : isSp c = true ∧ stripRight t = []
    · rw [if_pos h]
      rw [strip_cons_of_sp c t h.1, ← ih, h.2]
    · rw [if_neg h]
      by_cases hc : isSp c = true
      · have ht : stripRight t ≠ [] := fun hh => h ⟨hc, hh⟩
        rw [strip_cons_of_sp c _ hc, strip_cons_of_sp c t hc, ih]
      · unfold strip stripLeft
        rw [List.dropWhile_cons_of_neg hc, List.dropWhile_cons_of_neg hc]
        show stripRight (c :: stripRight t) = stripRight (c :: t)
        rw [stripRight_cons, stripRight_cons, stripRight_idem]

theorem strip_eq_nil_iff (x : Chars) : strip x = [] ↔ ∀ c ∈ x, isSp c = true := by
  unfold strip
  rw [stripRight_eq_nil_iff]
  constructor
  · intro h c hc
    by_cases hsp : isSp c = true
    · exact hsp
    · exfalso
      have hx : x = x.takeWhile isSp ++ x.dropWhile isSp :=
        (List.takeWhile_append_dropWhile isSp x).symm
      rw [hx] at hc
      rcases List.mem_append.mp hc with h1 | h1
      · exact hsp (List.mem_takeWhile_imp h1)
      · exact hsp (h c h1)
  · intro h c hc
    exact h c (List.dropWhile_subset _ hc)

/-! ## The stripped last line of a buffer -/

theorem strip_nil : strip ([] : Chars) = [] := rfl

theorem lastLineStripped_cons_nl (t : Chars) :
    lastLineStripped ('\n' :: t) = lastLineStripped t := by
  unfold lastLineStripped
  have h : segs ('\n' :: t) = [] :: segs t := by simp [segs]
  rw [h, List.getLastD_cons]

theorem lastLineStripped_cons_sp (c : Char) (t : Chars) (hc : isSp c = true) :
    lastLineStripped (c :: t) = lastLineStripped t := by
  by_cases hn : c = '\n'
  · rw [hn, lastLineStripped_cons_nl]
  · rcases hseg : segs t with _ | ⟨l, ls⟩
    · exact absurd hseg (segs_ne_nil t)
    · have h : segs (c :: t) = (c :: l) :: ls := by simp [segs, hn, hseg]
      unfold lastLineStripped
      rw [h, hseg]
      cases ls with
      | nil => simp [strip_cons_of_sp c l hc]
      | cons l2 ls2 => simp [List.getLastD_cons]

theorem lastLineStripped_prepend_allSp (w y : Chars) (h : ∀ c ∈ w, isSp c = true) :
    lastLineStripped (w ++ y) = lastLineStripped y := by
  induction w with
  | nil => rfl
  | cons c t ih =>
    rw [List.cons_append, lastLineStripped_cons_sp c _ (h c (List.mem_cons_self _ _))]
    exact ih (fun x hx => h x (List.mem_cons_of_mem _ hx))

theorem mem_of_mem_stripRight (l : Chars) (c : Char) (hc : c ∈ stripRight l) : c ∈ l := by
  unfold stripRight at hc
  rw [List.mem_reverse] at hc
  exact List.mem_reverse.mp (List.dropWhile_subset _ hc)

theorem lastLineStripped_stripRight_single (l : Chars) (hnl : ∀ c ∈ l, c ≠ '\n') :
    lastLineStripped (stripRight l) = strip l := by
  have h : ∀ c ∈ stripRight l, c ≠ '\n' := fun c hc => hnl c (mem_of_mem_stripRight l c hc)
  unfold lastLineStripped
  rw [segs_no_nl _ h]
  simp [strip_stripRight]

/-- The stripped last line of the fully stripped buffer equals the stripped
last line of the right-stripped buffer: left stripping never changes it. -/
theorem lastLineStripped_strip_eq_stripRight (cs : Chars) :
    lastLineStripped (strip cs) = lastLineStripped (stripRight cs) := by
  by_cases hu : cs.dropWhile isSp = []
  · have hsp : ∀ c ∈ cs, isSp c = true := List.dropWhile_eq_nil_iff.mp hu
    have h1 : strip cs = [] := (strip_eq_nil_iff cs).mpr hsp
    have h2 : stripRight cs = [] := (stripRight_eq_nil_iff cs).mpr hsp
    rw [h1, h2]
  · have hwu : cs.takeWhile isSp ++ cs.dropWhile isSp = cs :=
      List.takeWhile_append_dropWhile isSp cs
    have hne : stripRight (cs.dropWhile isSp) ≠ [] := by
      intro h
      have h1 := (stripRight_eq_nil_iff _).mp h _ (List.head_mem hu)
      have h2 := List.head_dropWhile_not isSp cs hu
      rw [h1] at h2
      exact absurd h2 (by decide)
    have hR : stripRight cs = cs.takeWhile isSp ++ stripRight (cs.dropWhile isSp) := by
      conv_lhs => rw [← hwu]
      exact stripRight_append_of_ne _ _ hne
    have hW : ∀ c ∈ cs.takeWhile isSp, isSp c = true := fun c hc => List.mem_takeWhile_imp hc
    rw [hR, lastLineStripped_prepend_allSp _ _ hW]
    rfl

/-! ## Characters of a joined line list -/

theorem mem_joinNl_of_mem (ss : List Chars) (l : Chars) (hl : l ∈ ss) :
    ∀ c ∈ l, c ∈ joinNl ss := by
  induction ss with
  | nil => cases hl
  | cons a ss' ih =>
    intro c hc
    cases ss' with
    | nil =>
      rcases List.mem_cons.mp hl with h | h
      · subst h; exact hc
      · cases h
    | cons b ss2 =>
      show c ∈ a ++ '\n' :: joinNl (b :: ss2)
      rcases List.mem_cons.mp hl with h | h
      · subst h
        exact List.mem_append_left _ hc
      · exact List.mem_append_right _ (List.mem_cons_of_mem _ (ih h c hc))

theorem mem_joinNl_cases (ss : List Chars) (c : Char) (hc : c ∈ joinNl ss) :
    c = '\n' ∨ ∃ l ∈ ss, c ∈ l := by
  induction ss with
  | nil => cases hc
  | cons a ss' ih =>
    cases ss' with
    | nil =>
      exact Or.inr ⟨a, List.mem_cons_self _ _, hc⟩
    | cons b ss2 =>
      rcases List.mem_append.mp hc with h | h
      · exact Or.inr ⟨a, List.mem_cons_self _ _, h⟩
      · rcases List.mem_cons.mp h with h1 | h1
        · exact Or.inl h1
        · rcases ih h1 with h2 | ⟨l, hl, hcl⟩
          · exact Or.inl h2
          · exact Or.inr ⟨l, List.mem_cons_of_mem _ hl, hcl⟩

/-! ## The stripped last line over a list of newline-free lines -/

/-- Over any list of newline-free lines, the stripped last line of the
right-stripped joined buffer is the stripped last non-blank line of the
list. -/
theorem lastLineStripped_joinNl : ∀ ss : List Chars,
    (∀ l ∈ ss, ∀ c ∈ l, c ≠ '\n') →
    lastLineStripped (stripRight (joinNl ss))
      = strip ((ss.filter (fun l => !isBlank l)).getLastD []) := by
  intro ss
  induction ss with
  | nil => intro _; rfl
  | cons l rest ih =>
    intro h
    have hl : ∀ c ∈ l, c ≠ '\n' := h l (List.mem_cons_self _ _)
    have hrest : ∀ l' ∈ rest, ∀ c ∈ l', c ≠ '\n' :=
      fun l' hl' => h l' (List.mem_cons_of_mem _ hl')
    cases rest with
    | nil =>
      show lastLineStripped (stripRight (joinNl [l])) = _
      rw [show joinNl [l] = l from rfl]
      rw [lastLineStripped_stripRight_single l hl]
      by_cases hb : isBlank l = true
      · have hnil : strip l = [] := List.isEmpty_iff.mp hb
        simp [hb, hnil, strip_nil]
      · simp [hb]
    | cons l2 rest2 =>
      have hjoin : joinNl (l :: l2 :: rest2) = l ++ '\n' :: joinNl (l2 :: rest2) := rfl
      rw [hjoin]
      by_cases hJ : stripRight (joinNl (l2 :: rest2)) = []
      · -- every later line is blank: the buffer right-strips down to the first line
        have hsp : ∀ c ∈ joinNl (l2 :: rest2), isSp c = true :=
          (stripRight_eq_nil_iff _).mp hJ
        have hb : ∀ c ∈ '\n' :: joinNl (l2 :: rest2), isSp c = true := by
          intro c hc
          rcases List.mem_cons.mp hc with h1 | h1
          · rw [h1]; decide
          · exact hsp c h1
        rw [stripRight_append_allSp _ _ hb, lastLineStripped_stripRight_single l hl]
        have hblank : ∀ l' ∈ l2 :: rest2, isBlank l' = true := by
          intro l' hl'
          have : ∀ c ∈ l', isSp c = true :=
            fun c hc => hsp c (mem_joinNl_of_mem _ l' hl' c hc)
          exact List.isEmpty_iff.mpr ((strip_eq_nil_iff l').mpr this)
        have hfilter : (l2 :: rest2).filter (fun x => !isBlank x) = [] := by
          rw [List.filter_eq_nil_iff]
          intro a ha
          simp [hblank a ha]
        rw [List.filter_cons, hfilter]
        by_cases hbl : isBlank l = true
        · have hnil : strip l = [] := List.isEmpty_iff.mp hbl
          simp [hbl, hnil, strip_nil]
        · simp [hbl]
      · -- a later line still has content: the first line survives whole and
        -- the problem reduces to the tail
        have h2 : stripRight ('\n' :: joinNl (l2 :: rest2))
            = '\n' :: stripRight (joinNl (l2 :: rest2)) := by
          rw [stripRight_cons]
          simp [hJ]
        have h3 : stripRight ('\n' :: joinNl (l2 :: rest2)) ≠ [] := by
          rw [h2]; simp
        rw [stripRight_append_of_ne _ _ h3, h2]
        have hseg : segs (l ++ '\n' :: stripRight (joinNl (l2 :: rest2)))
            = l :: segs (stripRight (joinNl (l2 :: rest2))) :=
          segs_append_nl l _ hl
        unfold lastLineStripped
        rw [hseg, List.getLastD_cons,
          getLastD_indep _ l [] (segs_ne_nil _)]
        have hIH := ih hrest
        unfold lastLineStripped at hIH
        rw [hIH]
        -- the filtered tail is non-empty
        have hex : ∃ c ∈ joinNl (l2 :: rest2), isSp c = false := by
          by_contra hno
          push_neg at hno
          apply hJ
          rw [stripRight_eq_nil_iff]
          intro c hc
          rcases Bool.eq_false_or_eq_true (isSp c) with h1 | h1
          · exact h1
          · exact absurd h1 (hno c hc)
        rcases hex with ⟨c, hcmem, hcsp⟩
        have hcnl : c ≠ '\n' := by
          intro hcc
          rw [hcc] at hcsp
          exact absurd hcsp (by decide)
        rcases mem_joinNl_cases _ c hcmem with h1 | ⟨l', hl', hcl⟩
        · exact absurd h1 hcnl
        · have hnbl : isBlank l' = false := by
            rcases Bool.eq_false_or_eq_true (isBlank l') with h1 | h1
            · exfalso
              have hh := (strip_eq_nil_iff l').mp (List.isEmpty_iff.mp h1) c hcl
              rw [hh] at hcsp
              cases hcsp
            · exact h1
          have hmem : l' ∈ (l2 :: rest2).filter (fun x => !isBlank x) :=
            List.mem_filter.mpr ⟨hl', by simp [hnbl]⟩
          have hne : (l2 :: rest2).filter (fun x => !isBlank x) ≠ [] :=
            List.ne_nil_of_mem hmem
          conv_rhs => rw [List.filter_cons]
          by_cases hbl : (!isBlank l) = true
          · rw [if_pos hbl, List.getLastD_cons, getLastD_indep _ l [] hne]
          · rw [if_neg hbl]

/-- The stripped last line of the stripped buffer — exactly what
`_is_prompt_ready` matches against — is the stripped last non-blank line of
the raw buffer. -/
theorem lastLineStripped_strip (cs : Chars) :
    lastLineStripped (strip cs) = strip (lastNonBlankLineC cs) := by
  rw [lastLineStripped_strip_eq_stripRight]
  conv_lhs => rw [← joinNl_segs cs]
  rw [lastLineStripped_joinNl (segs cs) (mem_segs_no_nl cs)]
  rfl

/-! ## C2 -/

/-- C2: for every device profile and every buffer, the completion check
returns true exactly when the buffer's last non-empty line (after stripping
surrounding whitespace) ends in one of the profile's prompt-terminator
suffixes.  In particular the check depends only on that last non-empty line:
a terminator appearing in an earlier line of the buffer (e.g. a `#` inside a
banner) never makes it return true, and when the last non-empty line ends in
no terminator the check returns false. -/
theorem c2_prompt_matches_last_nonempty_line :
    ∀ (dt : String) (L : String),
      is_prompt_ready dt L
        = (promptPatterns dt).any (fun p => endsW (strip (lastNonBlankLine L).data) p) := by
  intro dt L
  unfold is_prompt_ready isPromptReadyC
  rcases hseg : segs (strip L.data) with _ | ⟨l0, ls⟩
  · exact absurd hseg (segs_ne_nil _)
  · simp only [hseg]
    have key : strip ((l0 :: ls).getLastD []) = strip (lastNonBlankLine L).data := by
      have h := lastLineStripped_strip L.data
      unfold lastLineStripped at h
      rw [hseg] at h
      exact h
    simp only [key]

/-! ## C3 -/

theorem hasMarker_nil : hasMarker [] = false := by decide

/-- The imperative cleaning loop of `_clean_output` equals the declarative
pipeline: strip all lines, remove the first command-containing line when the
echo is still pending, drop marker-containing lines, and — when nothing has
been kept yet — drop the leading empty lines. -/
theorem cleanLines_pipeline (cmd : Chars) :
    ∀ (lines : List Chars) (skip accEmpty : Bool),
      cleanLines cmd skip accEmpty lines =
        if accEmpty then
          ((if skip then removeFirstContaining cmd (lines.map strip)
            else lines.map strip).filter (fun l => !hasMarker l)).dropWhile List.isEmpty
        else
          (if skip then removeFirstContaining cmd (lines.map strip)
            else lines.map strip).filter (fun l => !hasMarker l) := by
  intro lines
  induction lines with
  | nil =>
    intro skip accEmpty
    cases skip <;> cases accEmpty <;> simp [cleanLines, removeFirstContaining]
  | cons line rest ih =>
    intro skip accEmpty
    rw [cleanLines]
    by_cases h1 : (skip && hasSub cmd (strip line)) = true
    · rw [if_pos h1]
      obtain ⟨hs, hc⟩ : skip = true ∧ hasSub cmd (strip line) = true := by
        simpa using h1
      rw [ih false accEmpty, hs]
      simp [removeFirstContaining, hc]
    · rw [if_neg h1]
      by_cases h2 : (accEmpty && (strip line).isEmpty) = true
      · rw [if_pos h2]
        obtain ⟨ha, he⟩ : accEmpty = true ∧ (strip line).isEmpty = true := by
          simpa using h2
        have hnil : strip line = [] := List.isEmpty_iff.mp he
        rw [ih skip accEmpty, ha]
        cases hsk : skip with
        | false =>
          simp [hnil, List.filter_cons, hasMarker_nil, List.dropWhile_cons]
        | true =>
          have hcs : hasSub cmd (strip line) = false := by
            rcases Bool.eq_false_or_eq_true (hasSub cmd (strip line)) with h | h
            · rw [hsk] at h1; simp [h] at h1
            · exact h
          rw [hnil] at hcs
          simp [hnil, removeFirstContaining, hcs, List.filter_cons, hasMarker_nil,
            List.dropWhile_cons]
      · rw [if_neg h2]
        have hremove : (if skip = true
              then removeFirstContaining cmd ((line :: rest).map strip)
              else (line :: rest).map strip)
            = strip line :: (if skip = true
              then removeFirstContaining cmd (rest.map strip)
              else rest.map strip) := by
          cases hsk : skip with
          | false => simp
          | true =>
            have hcs : hasSub cmd (strip line) = false := by
              rcases Bool.eq_false_or_eq_true (hasSub cmd (strip line)) with h | h
              · rw [hsk] at h1; simp [h] at h1
              · exact h
            simp [removeFirstContaining, hcs]
        by_cases h3 : hasMarker (strip line) = true
        · rw [if_pos h3]
          rw [ih skip accEmpty, hremove]
          simp [List.filter_cons, h3]
        · rw [if_neg h3]
          have h3f : hasMarker (strip line) = false := by
            rcases Bool.eq_false_or_eq_true (hasMarker (strip line)) with h | h
            · exact absurd h h3
            · exact h
          rw [ih skip false, hremove]
          cases hae : accEmpty with
          | false => simp [List.filter_cons, h3f]
          | true =>
            have hne : (strip line).isEmpty = false := by
              rcases Bool.eq_false_or_eq_true ((strip line).isEmpty) with h | h
              · rw [hae] at h2; simp [h] at h2
              · exact h
            simp [List.filter_cons, h3f, List.dropWhile_cons, hne]

/-- Counterexample to C3 as stated: in the buffer
`"show version\nCisco IOS # of slots: 4\nRouter#"` with command
`"show version"`, the middle line `"Cisco IOS # of slots: 4"` is a real data
line — it is not the command echo, not a trailing bare-prompt line, and not a
leading empty line — yet the cleaned output is empty: the cleaner deletes
every line merely containing `#` (or `>`, `'$ '`, `'] '`) anywhere. -/
theorem c3_counterexample :
    clean_output "show version\nCisco IOS # of slots: 4\nRouter#" "show version" = ""
    ∧ (segs ("show version\nCisco IOS # of slots: 4\nRouter#".data))[1]?
        = some ("Cisco IOS # of slots: 4".data)
    ∧ hasSub ("show version".data) ("Cisco IOS # of slots: 4".data) = false
    ∧ strip ("Cisco IOS # of slots: 4".data) ≠ [] := by
  refine ⟨rfl, by decide, by decide, by decide⟩

/-- C3 (amended): the cleaner strips every line of surrounding whitespace and
removes exactly: the first line containing the command as a substring, every
line containing any of the marker substrings `#`, `>`, `'$ '`, `'] '`
anywhere, the leading block of empty lines, and trailing empty lines; every
other line appears, stripped, in its original order.  Formally, `_clean_output`
equals the declarative pipeline `cleanSpec`. -/
theorem c3_clean_output_is_pipeline :
    ∀ output cmd : String, clean_output output cmd = cleanSpec output cmd := by
  intro output cmd
  unfold clean_output cleanSpec cleanSpecLines
  by_cases h : output.data.isEmpty = true
  · rw [if_pos h, if_pos h]
  · rw [if_neg h, if_neg h, cleanLines_pipeline cmd.data (segs output.data) true true]
    simp

end CiscoRus
